import Mathlib

/-!
Verification of the Sagittarius-ENTJ snapshot container against its design
specification.

Modelling conventions, shared by all definitions below:

- Python byte strings are modelled as lists of natural numbers (one entry per
  byte); Python text strings (paths, passwords, encoded content, checksums)
  are likewise modelled as lists of natural numbers holding their UTF-8 code
  units.  No arithmetic is ever performed on byte values by the code under
  study, so the missing mod-256 bound is never load-bearing.
- External libraries (the cryptography package's AESGCM and PBKDF2HMAC, the
  hashlib SHA-256 digest, the json module, the base64 codec) are not part of
  this repository; they are modelled by executable idealizations that satisfy
  exactly the contracts the code relies on: the AEAD round-trips and rejects
  any other (key, nonce, ciphertext) combination, the key-derivation and the
  digest are injective, and json loading inverts json dumping.
- Randomness (salt and nonce generation via secrets.token_bytes) is made
  explicit: encrypt takes the generated salt and nonce as arguments, and
  theorems quantify over all values of the documented sizes.
- Python exceptions are modelled by the inductive type AppError; an except
  chain is modelled by a total function on AppError values.
-/

/-- Byte strings and text strings of the Python source, as lists of codes. -/
abbrev Str : Type := List Nat

/-- Injective encoding of a list of naturals into a single natural: each
element x contributes a block of x one-bits followed by a zero-bit.  Used
only inside the idealized models of the external hash and AEAD primitives. -/
def encodeList : Str → Nat
  | [] => 0
  | x :: t => 2 ^ x - 1 + 2 ^ (x + 1) * (encodeList t + 1)

/-!
Idealized models of the external cryptographic collaborators.  These are not
code of this repository: the source calls the cryptography package (AESGCM,
PBKDF2HMAC) and relies on its documented contract, which the following
executable definitions realize exactly (round-trip, fixed 16-entry tag
overhead, and rejection of every (key, nonce, ciphertext) triple that is not
an honest encryption under that very key and nonce).
-/

/-- Modelled from the library contract: PBKDF2-HMAC-SHA256 key derivation,
idealized as an injective function of the password bytes and the salt.  The
source derives a fresh key on every call from password.encode-utf-8 and the
32-byte salt. -/
def deriveKey (password salt : Str) : Str :=
  password.length :: (password ++ salt)

/-- Modelled from the library contract: the 16-byte AES-GCM authentication
tag, idealized as an unforgeable value binding key, nonce and plaintext. -/
def aeadTag (key nonce data : Str) : Nat :=
  Nat.pair (Nat.pair (encodeList key) (encodeList nonce)) (encodeList data)

/-- Modelled from the library contract: AESGCM.encrypt produces the
ciphertext followed by the 16-byte authentication tag, so its output is
exactly 16 entries longer than the plaintext. -/
def aeadEncrypt (key nonce data : Str) : Str :=
  data ++ List.replicate 15 0 ++ [aeadTag key nonce data]

/-- Modelled from the library contract: AESGCM.decrypt recovers the
plaintext when and only when the ciphertext is an honest encryption under
the same key and nonce; every other input fails tag verification (the
InvalidTag outcome, modelled as none). -/
def aeadDecrypt (key nonce ct : Str) : Option Str :=
  if ct.length < 16 then none
  else
    let d := ct.take (ct.length - 16)
    if ct = aeadEncrypt key nonce d then some d else none

/-- Error taxonomy of the application, one constructor per exception class
of the shared exceptions module.  EncryptionError, DecryptionError and
InvalidPasswordError are imported throughout the source but their class
definitions are absent from the copy under study; they are modelled from the
spec (section 7) as distinct kinds, with InvalidPasswordError a subtype of
the decryption-failure family.  JSONDecodeError and KeyError stand for the
corresponding Python built-ins. -/
inductive AppError where
  | ValidationError
  | EncodingError
  | EncryptionError
  | DecryptionError
  | InvalidPasswordError
  | RepositoryError
  | SnapshotNotFoundError
  | InvalidSnapshotError
  | JSONDecodeError
  | KeyError
  | FileSystemError
deriving DecidableEq, Repr

/-- Modelled from the spec: section 7 places InvalidPasswordError inside the
decryption-failure family (its class definition is missing from the shared
exceptions module in the copy under study), so a Python handler catching
DecryptionError also catches InvalidPasswordError. -/
def AppError.isDecryptionFamily : AppError → Bool
  | .DecryptionError => true
  | .InvalidPasswordError => true
  | _ => false

/-- Magic header bytes, the ASCII codes of the string SAGENC. -/
def AESGCMEncryptor.MAGIC_HEADER : Str := [83, 65, 71, 69, 78, 67]

/-- Format version byte. -/
def AESGCMEncryptor.VERSION : Nat := 1

/-- Salt size in bytes. -/
def AESGCMEncryptor.SALT_SIZE : Nat := 32

/-- Nonce size in bytes. -/
def AESGCMEncryptor.NONCE_SIZE : Nat := 12

/-- AESGCMEncryptor.encrypt.  The randomly generated salt and nonce are
passed explicitly; the source draws them from secrets.token_bytes with the
sizes SALT_SIZE and NONCE_SIZE.  The result is the envelope
magic, version, salt, nonce, ciphertext-plus-tag. -/
def AESGCMEncryptor.encrypt (data : Str) (password : Str) (salt nonce : Str) : Str :=
  MAGIC_HEADER ++ [VERSION] ++ salt ++ nonce ++
    aeadEncrypt (deriveKey password salt) nonce data

/-- AESGCMEncryptor.is_encrypted: data is nonempty, at least seven bytes
long, starts with the magic header, and its seventh byte is the version. -/
def AESGCMEncryptor.is_encrypted (data : Str) : Bool :=
  if data.length < MAGIC_HEADER.length + 1 then false
  else if data.take MAGIC_HEADER.length ≠ MAGIC_HEADER then false
  else data.getD MAGIC_HEADER.length 0 == VERSION

/-- AESGCMEncryptor.decrypt, line for line: minimum-size check, magic and
version checks, fixed-offset parsing of salt, nonce and ciphertext, key
derivation, AEAD decryption; tag failure becomes InvalidPasswordError. -/
def AESGCMEncryptor.decrypt (encrypted_data : Str) (password : Str) : Except AppError Str :=
  let min_size := MAGIC_HEADER.length + 1 + SALT_SIZE + NONCE_SIZE + 16
  if encrypted_data.length < min_size then
    .error .DecryptionError
  else if ¬ is_encrypted encrypted_data then
    .error .DecryptionError
  else
    let offset0 := MAGIC_HEADER.length
    let version := encrypted_data.getD offset0 0
    if version ≠ VERSION then
      .error .DecryptionError
    else
      let offset1 := offset0 + 1
      let salt := (encrypted_data.drop offset1).take SALT_SIZE
      if salt.length ≠ SALT_SIZE then
        .error .DecryptionError
      else
        let offset2 := offset1 + SALT_SIZE
        let nonce := (encrypted_data.drop offset2).take NONCE_SIZE
        if nonce.length ≠ NONCE_SIZE then
          .error .DecryptionError
        else
          let offset3 := offset2 + NONCE_SIZE
          let ciphertext := encrypted_data.drop offset3
          if ciphertext.length < 16 then
            .error .DecryptionError
          else
            let key := deriveKey password salt
            match aeadDecrypt key nonce ciphertext with
            | some plaintext => .ok plaintext
            | none => .error .InvalidPasswordError

/-- Modelled from the library contract: hashlib sha256 hexdigest, idealized
as an injective digest of the content bytes (collision freeness is the only
property the code relies on; the 64-hex-character surface form is not
modelled). -/
def sha256hex (content : Str) : Str := content

/-- normalize_path from shared utils: every occurrence of os.sep is replaced
by the forward slash; modelled for a POSIX platform, where os.sep is itself
the forward slash (code 47). -/
def normalize_path (path : Str) : Str :=
  path.map (fun c => if c = 47 then 47 else c)

/-- Modelled from the library contract: Base64 encoding, idealized as the
identity embedding of byte lists into text, since the code relies only on
decode being the exact inverse of encode. -/
def Base64Encoder.encode (content : Str) : Str := content

/-- Modelled from the library contract: Base64 decoding, inverse of the
encode above. -/
def Base64Encoder.decode (encoded : Str) : Str := encoded

/-- One entry of the files list of a parsed container document: the dict
with keys path, size, checksum, content_base64, each possibly absent. -/
structure FileDict where
  path : Option Str
  size : Option Nat
  checksum : Option Str
  content_base64 : Option Str
deriving DecidableEq, Repr

/-- A parsed container document: the top-level JSON object with keys
root_path, created_at, metadata, directories and files, each possibly
absent.  Timestamps and the metadata bag are opaque to every claim and
carried as bare naturals. -/
structure SnapDoc where
  root_path : Option Str
  created_at : Option Nat
  metadata : Option Nat
  directories : Option (List Str)
  files : Option (List FileDict)
deriving DecidableEq, Repr

/-- FileEntry dataclass: relative path, raw content, derived size and
checksum, and the transient encoded-content cache. -/
structure FileEntry where
  relative_path : Str
  content : Str
  size : Nat
  checksum : Str
  encoded_content : Option Str
deriving DecidableEq, Repr

/-- FileEntry construction including post-init: the path is normalized and
size and checksum are derived from the content. -/
def FileEntry.make (relative_path : Str) (content : Str) : FileEntry :=
  { relative_path := normalize_path relative_path
    content := content
    size := content.length
    checksum := sha256hex content
    encoded_content := none }

/-- FileEntry.validate_checksum: recompute the digest of the current
content and compare with the stored checksum. -/
def FileEntry.validate_checksum (f : FileEntry) : Bool :=
  sha256hex f.content == f.checksum

/-- FileEntry.set_encoded_content. -/
def FileEntry.set_encoded_content (f : FileEntry) (encoded : Str) : FileEntry :=
  { f with encoded_content := some encoded }

/-- FileEntry.to_dict with content included: fails fast with
ValidationError when no encoded content has been attached. -/
def FileEntry.to_dict (f : FileEntry) : Except AppError FileDict :=
  match f.encoded_content with
  | none => .error .ValidationError
  | some enc => .ok
      { path := some f.relative_path
        size := some f.size
        checksum := some f.checksum
        content_base64 := some enc }

/-- FileEntry.from_dict: rebuild the entry from its dict and the decoded
content, raising ValidationError when a stored checksum disagrees with the
recomputed one; a missing path key is the Python KeyError. -/
def FileEntry.from_dict (data : FileDict) (content : Str) :
    Except AppError FileEntry :=
  match data.path with
  | none => .error .KeyError
  | some p =>
    let entry := FileEntry.make p content
    match data.checksum with
    | some c => if entry.checksum ≠ c then .error .ValidationError else .ok entry
    | none => .ok entry

/-- DirectorySnapshot dataclass: root path, directory paths, file entries,
timestamp and metadata bag (both opaque). -/
structure DirectorySnapshot where
  root_path : Str
  directories : List Str
  files : List FileEntry
  created_at : Nat
  metadata : Nat
deriving DecidableEq, Repr

/-- DirectorySnapshot.add_directory: appends unless the path is empty or
the single-dot path. -/
def DirectorySnapshot.add_directory (s : DirectorySnapshot)
    (relative_path : Str) : DirectorySnapshot :=
  if relative_path ≠ [] ∧ relative_path ≠ [46] then
    { s with directories := s.directories ++ [relative_path] }
  else s

/-- DirectorySnapshot.add_file. -/
def DirectorySnapshot.add_file (s : DirectorySnapshot) (f : FileEntry) :
    DirectorySnapshot :=
  { s with files := s.files ++ [f] }

/-- DirectorySnapshot.validate: non-empty root path, every checksum valid,
no duplicate file paths, no duplicate directory paths, in source order;
duplicate detection compares the list length with its set size. -/
def DirectorySnapshot.validate (s : DirectorySnapshot) :
    Except AppError Bool :=
  if s.root_path = [] then .error .ValidationError
  else if ¬ s.files.all FileEntry.validate_checksum then .error .ValidationError
  else if (s.files.map FileEntry.relative_path).dedup.length ≠
      (s.files.map FileEntry.relative_path).length then .error .ValidationError
  else if s.directories.dedup.length ≠ s.directories.length then
    .error .ValidationError
  else .ok true

/-- DirectorySnapshot.to_dict: every file is converted with content. -/
def DirectorySnapshot.to_dict (s : DirectorySnapshot) :
    Except AppError SnapDoc :=
  (s.files.mapM FileEntry.to_dict).map (fun fds =>
    { root_path := some s.root_path
      created_at := some s.created_at
      metadata := some s.metadata
      directories := some s.directories
      files := some fds })

/-- DirectorySnapshot.from_dict: rebuild from the document with defaults
for absent keys, adding directories through add_directory (which skips
empty and dot paths) and files through add_file. -/
def DirectorySnapshot.from_dict (data : SnapDoc) (files : List FileEntry) :
    DirectorySnapshot :=
  let base : DirectorySnapshot :=
    { root_path := data.root_path.getD []
      directories := []
      files := []
      created_at := data.created_at.getD 0
      metadata := data.metadata.getD 0 }
  let withDirs := (data.directories.getD []).foldl
    DirectorySnapshot.add_directory base
  files.foldl DirectorySnapshot.add_file withDirs

/-!
Idealized model of the external json module.  The code relies on exactly
two properties: loads inverts dumps, and loads rejects some byte strings
(json.JSONDecodeError).  The model serializes the document by
length-prefixed fields, which realizes both properties executably.
-/

/-- Serialize one natural. -/
def encNat (x : Nat) : Str := [x]

/-- Serialize one string as its length followed by its codes. -/
def encStr (s : Str) : Str := s.length :: s

/-- Serialize an optional value with an explicit presence flag. -/
def encOptWith (enc : α → Str) : Option α → Str
  | none => [0]
  | some a => 1 :: enc a

/-- Serialize a list as its length followed by the serialized items. -/
def encListWith (enc : α → Str) (xs : List α) : Str :=
  xs.length :: (xs.map enc).flatten

/-- Serialize a files-list entry. -/
def encFileDict (d : FileDict) : Str :=
  encOptWith encStr d.path ++ encOptWith encNat d.size ++
    encOptWith encStr d.checksum ++ encOptWith encStr d.content_base64

/-- Serialize a container document. -/
def encSnapDoc (d : SnapDoc) : Str :=
  encOptWith encStr d.root_path ++ encOptWith encNat d.created_at ++
    encOptWith encNat d.metadata ++
    encOptWith (encListWith encStr) d.directories ++
    encOptWith (encListWith encFileDict) d.files

/-- Consume one natural. -/
def parseNat : Str → Option (Nat × Str)
  | [] => none
  | x :: r => some (x, r)

/-- Consume one length-prefixed string. -/
def parseStr (l : Str) : Option (Str × Str) :=
  match parseNat l with
  | none => none
  | some (n, r) => if n ≤ r.length then some (r.take n, r.drop n) else none

/-- Consume one optional value. -/
def parseOptWith (p : Str → Option (α × Str)) (l : Str) :
    Option (Option α × Str) :=
  match l with
  | 0 :: r => some (none, r)
  | 1 :: r =>
    match p r with
    | some (a, r') => some (some a, r')
    | none => none
  | _ => none

/-- Consume a fixed number of items. -/
def parseCount (p : Str → Option (α × Str)) : Nat → Str → Option (List α × Str)
  | 0, l => some ([], l)
  | n + 1, l =>
    match p l with
    | none => none
    | some (a, r) =>
      match parseCount p n r with
      | none => none
      | some (as, r') => some (a :: as, r')

/-- Consume one length-prefixed list. -/
def parseListWith (p : Str → Option (α × Str)) (l : Str) :
    Option (List α × Str) :=
  match parseNat l with
  | none => none
  | some (n, r) => parseCount p n r

/-- Consume one files-list entry. -/
def parseFileDict (l : Str) : Option (FileDict × Str) :=
  match parseOptWith parseStr l with
  | none => none
  | some (path, r1) =>
    match parseOptWith parseNat r1 with
    | none => none
    | some (size, r2) =>
      match parseOptWith parseStr r2 with
      | none => none
      | some (checksum, r3) =>
        match parseOptWith parseStr r3 with
        | none => none
        | some (cb, r4) =>
          some ({ path := path, size := size, checksum := checksum,
                  content_base64 := cb }, r4)

/-- Consume one container document. -/
def parseSnapDoc (l : Str) : Option (SnapDoc × Str) :=
  match parseOptWith parseStr l with
  | none => none
  | some (root, r1) =>
    match parseOptWith parseNat r1 with
    | none => none
    | some (created, r2) =>
      match parseOptWith parseNat r2 with
      | none => none
      | some (meta, r3) =>
        match parseOptWith (parseListWith parseStr) r3 with
        | none => none
        | some (dirs, r4) =>
          match parseOptWith (parseListWith parseFileDict) r4 with
          | none => none
          | some (fls, r5) =>
            some ({ root_path := root, created_at := created,
                    metadata := meta, directories := dirs,
                    files := fls }, r5)

/-- Modelled from the library contract: json.dumps on the canonical
container document. -/
def json_dumps (d : SnapDoc) : Str := encSnapDoc d

/-- Modelled from the library contract: json.loads; rejects anything that
is not a full serialized document. -/
def json_loads (l : Str) : Option SnapDoc :=
  match parseSnapDoc l with
  | some (d, []) => some d
  | _ => none

/-- Abstract file-system state seen by the repository: a write-shadowing
association list of file contents and the list of directories that
os.makedirs has created.  The repository itself is modelled as constructed
with the encryption service attached, as the dependency container wires
it. -/
structure FS where
  files : List (Str × Str)
  dirs : List Str
deriving DecidableEq, Repr

/-- Read a file, newest write first. -/
def FS.read (fs : FS) (p : Str) : Option Str :=
  (fs.files.find? (fun kv => kv.1 == p)).map (fun kv => kv.2)

/-- Write a file (open wb: create or truncate). -/
def FS.write (fs : FS) (p : Str) (bytes : Str) : FS :=
  { fs with files := (p, bytes) :: fs.files }

/-- Record a directory creation (os.makedirs with exist_ok). -/
def FS.makedirs (fs : FS) (d : Str) : FS :=
  { fs with dirs := d :: fs.dirs }

/-- os.path.dirname for forward-slash paths: everything before the last
slash, empty when there is none. -/
def dirname (p : Str) : Str :=
  ((p.reverse.dropWhile (fun c => c ≠ 47)).drop 1).reverse

/-- Except chain of JsonSnapshotRepository.save: every exception raised in
the body, OS errors included, is wrapped into RepositoryError. -/
def JsonSnapshotRepository.saveWrap (e : AppError) : AppError :=
  match e with
  | _ => .RepositoryError

/-- JsonSnapshotRepository.save, modelled as a state-passing function over
the abstract file system.  Steps in source order: validate, attach encoded
content to every entry, build the dict, dump to JSON bytes, encrypt when a
non-empty password is supplied, create the parent directory, write. -/
def JsonSnapshotRepository.save (snapshot : DirectorySnapshot) (path : Str) (password : Option Str)
    (salt nonce : Str) (fs : FS) : Except AppError Unit × FS :=
  match DirectorySnapshot.validate snapshot with
  | .error e => (.error (saveWrap e), fs)
  | .ok _ =>
    let files' := snapshot.files.map (fun f =>
      f.set_encoded_content (Base64Encoder.encode f.content))
    let snapshot' := { snapshot with files := files' }
    match DirectorySnapshot.to_dict snapshot' with
    | .error e => (.error (saveWrap e), fs)
    | .ok data =>
      let json_bytes := json_dumps data
      let out_bytes :=
        match password with
        | some pw =>
          if pw = [] then json_bytes
          else AESGCMEncryptor.encrypt json_bytes pw salt nonce
        | none => json_bytes
      let parent_dir := dirname path
      let fs1 := if parent_dir ≠ [] then fs.makedirs parent_dir else fs
      (.ok (), fs1.write path out_bytes)

/-- Except chain of JsonSnapshotRepository.load, in source order: the
decryption family is re-raised, JSON decode errors become
InvalidSnapshotError, InvalidSnapshotError is re-raised, and everything
else (a bare ValidationError included) is wrapped into RepositoryError. -/
def JsonSnapshotRepository.loadWrap (e : AppError) : AppError :=
  if e.isDecryptionFamily then e
  else if e = .JSONDecodeError then .InvalidSnapshotError
  else if e = .InvalidSnapshotError then e
  else .RepositoryError

/-- Body of JsonSnapshotRepository.load inside its try block: encryption
detection and password gate, decryption, JSON parsing, structural checks,
per-file decoding and reconstruction, snapshot rebuild and final
validation. -/
def JsonSnapshotRepository.loadBody (data_bytes : Str) (password : Option Str) :
    Except AppError DirectorySnapshot := do
  let bytes ←
    if AESGCMEncryptor.is_encrypted data_bytes then
      match password with
      | none => Except.error AppError.DecryptionError
      | some pw =>
        if pw = [] then Except.error AppError.DecryptionError
        else AESGCMEncryptor.decrypt data_bytes pw
    else Except.ok data_bytes
  let data ←
    match json_loads bytes with
    | none => Except.error AppError.JSONDecodeError
    | some d => Except.ok d
  if data.files.isNone then Except.error AppError.InvalidSnapshotError
  else
    let entries ← (data.files.getD []).mapM (fun fd =>
      if fd.path.isNone || fd.content_base64.isNone then
        Except.error AppError.InvalidSnapshotError
      else
        FileEntry.from_dict fd (Base64Encoder.decode (fd.content_base64.getD [])))
    let snapshot := DirectorySnapshot.from_dict data entries
    let _ ← DirectorySnapshot.validate snapshot
    Except.ok snapshot

/-- JsonSnapshotRepository.load: existence check outside the try block,
then the body with its except chain applied to any raised error. -/
def JsonSnapshotRepository.load (path : Str) (password : Option Str) (fs : FS) :
    Except AppError DirectorySnapshot :=
  match FS.read fs path with
  | none => .error .SnapshotNotFoundError
  | some data_bytes =>
    match loadBody data_bytes password with
    | .ok snap => .ok snap
    | .error e => .error (loadWrap e)

/-- Progress calls delivered by FileSystemService.list_files during one
scan with a progress callback attached: one call (0, total) after the
counting pass, then (processed, total) for each collected file, where
total is the number of extension-matching files. -/
def list_files_progress (matching : Nat) : List (Nat × Nat) :=
  (0, matching) :: (List.range matching).map (fun i => (i + 1, matching))

/-- Progress calls delivered during one ScanDirectoryUseCase.execute run
when every file read succeeds: first the list_files calls, then one
(idx, total) call per encoded file from the processing loop. -/
def scan_progress (matching : Nat) : List (Nat × Nat) :=
  list_files_progress matching ++
    (List.range matching).map (fun i => (i + 1, matching))

/-- The four invariants enforced by DirectorySnapshot.validate. -/
def snapshotInvariants (s : DirectorySnapshot) : Prop :=
  s.root_path ≠ [] ∧ (∀ f ∈ s.files, f.validate_checksum = true) ∧
    (s.files.map FileEntry.relative_path).Nodup ∧ s.directories.Nodup

/-- The dict produced for a file entry during save: all four keys present,
the content key holding the encoded content. -/
def entryDict (f : FileEntry) : FileDict :=
  { path := some f.relative_path
    size := some f.size
    checksum := some f.checksum
    content_base64 := some (Base64Encoder.encode f.content) }

/-- The document save serializes: all five keys present, the files list
holding one dict per entry. -/
def savedDoc (s : DirectorySnapshot) : SnapDoc :=
  { root_path := some s.root_path
    created_at := some s.created_at
    metadata := some s.metadata
    directories := some s.directories
    files := some (s.files.map entryDict) }

/-- The file entry load reconstructs from a saved entry: rebuilt from the
path and the decoded content. -/
def reloadEntry (f : FileEntry) : FileEntry :=
  FileEntry.make f.relative_path f.content

/-- The snapshot load reconstructs from a saved document. -/
def loadedSnapshot (s : DirectorySnapshot) : DirectorySnapshot :=
  DirectorySnapshot.from_dict (savedDoc s) (s.files.map reloadEntry)

/-- A concrete one-file snapshot used to witness the round trip. -/
def sampleSnapshot : DirectorySnapshot :=
  { root_path := [97], directories := [[100]],
    files := [FileEntry.make [98] [5, 6]],
    created_at := 0, metadata := 0 }

/-- An initially empty file system used to witness the round trip. -/
def sampleFS : FS := { files := [], dirs := [] }

/-- Uniqueness of the odd-part decomposition of a positive natural. -/
theorem two_pow_mul_odd_inj : ∀ a c b d : Nat,
    2 ^ a * (2 * b + 1) = 2 ^ c * (2 * d + 1) → a = c ∧ b = d := by
  intro a
  induction a with
  | zero =>
    intro c b d h
    cases c with
    | zero => simp only [pow_zero, one_mul] at h; omega
    | succ c' =>
      exfalso
      rw [pow_succ] at h
      simp only [pow_zero, one_mul] at h
      obtain ⟨k, hk⟩ : ∃ k, 2 ^ c' * 2 * (2 * d + 1) = 2 * k :=
        ⟨2 ^ c' * (2 * d + 1), by ring⟩
      rw [hk] at h
      omega
  | succ a' ih =>
    intro c b d h
    cases c with
    | zero =>
      exfalso
      rw [pow_succ] at h
      simp only [pow_zero, one_mul] at h
      obtain ⟨k, hk⟩ : ∃ k, 2 ^ a' * 2 * (2 * b + 1) = 2 * k :=
        ⟨2 ^ a' * (2 * b + 1), by ring⟩
      rw [hk] at h
      omega
    | succ c' =>
      rw [pow_succ, pow_succ] at h
      have h' : 2 * (2 ^ a' * (2 * b + 1)) = 2 * (2 ^ c' * (2 * d + 1)) := by
        calc 2 * (2 ^ a' * (2 * b + 1)) = 2 ^ a' * 2 * (2 * b + 1) := by ring
          _ = 2 ^ c' * 2 * (2 * d + 1) := h
          _ = 2 * (2 ^ c' * (2 * d + 1)) := by ring
      have h2 := Nat.eq_of_mul_eq_mul_left (by omega) h'
      rcases ih c' b d h2 with ⟨h3, h4⟩
      exact ⟨by omega, h4⟩

/-- Adding one to an encoded cons exposes its odd-part decomposition. -/
theorem encodeList_cons_succ (x : Nat) (t : Str) :
    encodeList (x :: t) + 1 = 2 ^ x * (2 * (encodeList t + 1) + 1) := by
  have h1 : (1:Nat) ≤ 2 ^ x := Nat.one_le_two_pow
  simp only [encodeList]
  rw [pow_succ]
  ring_nf
  omega

/-- The block encoding of lists of naturals is injective. -/
theorem encodeList_injective : Function.Injective encodeList := by
  intro l
  induction l with
  | nil =>
    intro m h
    cases m with
    | nil => rfl
    | cons y s =>
      exfalso
      have h2 : (1:Nat) ≤ 2 ^ (y + 1) := Nat.one_le_two_pow
      simp only [encodeList] at h
      have h3 : 2 ^ (y + 1) * (encodeList s + 1) ≥ 2 ^ (y + 1) := by
        exact Nat.le_mul_of_pos_right _ (by omega)
      have h4 : (2:Nat) ≤ 2 ^ (y + 1) := by
        calc (2:Nat) = 2 ^ 1 := by norm_num
          _ ≤ 2 ^ (y + 1) := Nat.pow_le_pow_right (by omega) (by omega)
      omega
  | cons x t ih =>
    intro m h
    cases m with
    | nil =>
      exfalso
      have h2 : (2:Nat) ≤ 2 ^ (x + 1) := by
        calc (2:Nat) = 2 ^ 1 := by norm_num
          _ ≤ 2 ^ (x + 1) := Nat.pow_le_pow_right (by omega) (by omega)
      have h3 : 2 ^ (x + 1) * (encodeList t + 1) ≥ 2 ^ (x + 1) := by
        exact Nat.le_mul_of_pos_right _ (by omega)
      simp only [encodeList] at h
      omega
    | cons y s =>
      have h1 : encodeList (x :: t) + 1 = encodeList (y :: s) + 1 := by omega
      rw [encodeList_cons_succ, encodeList_cons_succ] at h1
      rcases two_pow_mul_odd_inj x y (encodeList t + 1) (encodeList s + 1) h1
        with ⟨hx, ht⟩
      have ht' : encodeList t = encodeList s := by omega
      rw [hx, ih ht']

/-- Setting an entry at or beyond the taken region leaves the taken region
unchanged. -/
theorem set_take_of_le (l : Str) (i v n : Nat) (h : n ≤ i) :
    (l.set i v).take n = l.take n := by
  rw [List.set_take]
  apply List.set_eq_of_length_le
  have h1 : (l.take n).length = min n l.length := List.length_take _ _
  omega

/-- Dropping past a set entry shifts its index. -/
theorem set_drop_of_le (l : Str) (i v n : Nat) (h : n ≤ i) :
    (l.set i v).drop n = (l.drop n).set (i - n) v := by
  rw [List.drop_set, if_neg (by omega)]

/-- The AEAD output is sixteen entries longer than the plaintext. -/
theorem aeadEncrypt_length (k n d : Str) :
    (aeadEncrypt k n d).length = d.length + 16 := by
  simp [aeadEncrypt]

/-- Taking the plaintext-sized front of an AEAD output recovers the
plaintext. -/
theorem aeadEncrypt_take (k n d : Str) :
    (aeadEncrypt k n d).take d.length = d := by
  simp only [aeadEncrypt]
  rw [List.append_assoc]
  exact List.take_left' rfl

/-- The AEAD tag binds key, nonce and plaintext injectively. -/
theorem aeadTag_inj {k n d k' n' d' : Str}
    (h : aeadTag k n d = aeadTag k' n' d') : k = k' ∧ n = n' ∧ d = d' := by
  simp only [aeadTag] at h
  have h1 := Nat.pair_eq_pair.mp h
  have h2 := Nat.pair_eq_pair.mp h1.1
  exact ⟨encodeList_injective h2.1, encodeList_injective h2.2,
    encodeList_injective h1.2⟩

/-- AEAD encryption is injective in key, nonce and plaintext jointly. -/
theorem aeadEncrypt_inj {k n d k' n' d' : Str}
    (h : aeadEncrypt k n d = aeadEncrypt k' n' d') :
    k = k' ∧ n = n' ∧ d = d' := by
  have hlen : d.length = d'.length := by
    have h2 := congrArg List.length h
    rw [aeadEncrypt_length, aeadEncrypt_length] at h2
    omega
  have hd : d = d' := by
    have h2 := congrArg (List.take d.length) h
    rw [aeadEncrypt_take, hlen, aeadEncrypt_take] at h2
    exact h2
  subst hd
  simp only [aeadEncrypt] at h
  have h3 := List.append_cancel_left h
  have h4 : aeadTag k n d = aeadTag k' n' d := by
    injection h3 with h5 h6
  rcases aeadTag_inj h4 with ⟨hk, hn, _⟩
  exact ⟨hk, hn, rfl⟩

/-- Decrypting an honest AEAD encryption under the same key and nonce
recovers the plaintext. -/
theorem aeadDecrypt_aeadEncrypt (k n d : Str) :
    aeadDecrypt k n (aeadEncrypt k n d) = some d := by
  have hlen := aeadEncrypt_length k n d
  have htake : (aeadEncrypt k n d).take ((aeadEncrypt k n d).length - 16) = d := by
    rw [hlen]
    rw [show d.length + 16 - 16 = d.length by omega]
    exact aeadEncrypt_take k n d
  simp only [aeadDecrypt]
  rw [if_neg (by omega)]
  simp [htake]

/-- Decryption under a different key or nonce rejects an honest
encryption. -/
theorem aeadDecrypt_wrong (k n k' n' d : Str) (hne : k ≠ k' ∨ n ≠ n') :
    aeadDecrypt k' n' (aeadEncrypt k n d) = none := by
  have hlen := aeadEncrypt_length k n d
  have htake : (aeadEncrypt k n d).take ((aeadEncrypt k n d).length - 16) = d := by
    rw [hlen]
    rw [show d.length + 16 - 16 = d.length by omega]
    exact aeadEncrypt_take k n d
  simp only [aeadDecrypt]
  rw [if_neg (by omega)]
  simp only [htake]
  rw [if_neg]
  intro hcontra
  rcases aeadEncrypt_inj hcontra with ⟨hk, hn, _⟩
  rcases hne with h | h
  · exact h hk
  · exact h hn

/-- The envelope regrouped as a seven-byte header in front of salt, nonce
and AEAD output. -/
theorem AESGCMEncryptor.encrypt_decomp (p k s n : Str) :
    encrypt p k s n =
      (MAGIC_HEADER ++ [VERSION]) ++
        (s ++ (n ++ aeadEncrypt (deriveKey k s) n p)) := by
  simp [encrypt, List.append_assoc]

/-- Total length of the envelope for correctly sized salt and nonce. -/
theorem AESGCMEncryptor.encrypt_length (p k s n : Str) (hs : s.length = SALT_SIZE)
    (hn : n.length = NONCE_SIZE) :
    (encrypt p k s n).length = 67 + p.length := by
  rw [encrypt_decomp]
  simp [List.length_append, aeadEncrypt_length, hs, hn,
    MAGIC_HEADER, SALT_SIZE, NONCE_SIZE]
  omega

/-- The envelope is at least seven bytes long whatever the salt and nonce. -/
theorem AESGCMEncryptor.encrypt_length_ge (p k s n : Str) : 7 ≤ (encrypt p k s n).length := by
  rw [encrypt_decomp]
  simp [List.length_append, MAGIC_HEADER]

/-- The first six bytes of the envelope are the magic header. -/
theorem AESGCMEncryptor.encrypt_take_magic (p k s n : Str) :
    (encrypt p k s n).take 6 = MAGIC_HEADER := by
  rw [encrypt_decomp, List.append_assoc]
  exact List.take_left' (by simp [MAGIC_HEADER])

/-- The seventh byte of the envelope is the version byte. -/
theorem AESGCMEncryptor.encrypt_version_byte (p k s n : Str) :
    (encrypt p k s n).getD 6 0 = 1 := by
  rw [encrypt_decomp, List.append_assoc]
  simp [List.getD, List.getElem?_append, MAGIC_HEADER, VERSION]

/-- Dropping the seven-byte header exposes salt, nonce and AEAD output. -/
theorem AESGCMEncryptor.encrypt_drop_header (p k s n : Str) :
    (encrypt p k s n).drop 7 =
      s ++ (n ++ aeadEncrypt (deriveKey k s) n p) := by
  rw [encrypt_decomp]
  exact List.drop_left' (by simp [MAGIC_HEADER])

/-- The detection predicate unfolded into its three defining conditions. -/
theorem AESGCMEncryptor.is_encrypted_iff (data : Str) :
    is_encrypted data = true ↔
      7 ≤ data.length ∧ data.take 6 = MAGIC_HEADER ∧ data.getD 6 0 = 1 := by
  have hm : MAGIC_HEADER.length = 6 := by simp [MAGIC_HEADER]
  simp only [is_encrypted, hm, VERSION]
  split_ifs with h1 h2
  · simp
    omega
  · simp
    intro _ h
    exact absurd h h2
  · simp only [List.getD] at h2 ⊢
    simp [beq_iff_eq]
    constructor
    · intro h3
      exact ⟨by omega, not_not.mp h2, h3⟩
    · intro h3
      exact h3.2.2

/-- Every envelope produced by encrypt passes the detection predicate. -/
theorem AESGCMEncryptor.is_encrypted_encrypt (p k s n : Str) :
    is_encrypted (encrypt p k s n) = true := by
  rw [is_encrypted_iff]
  exact ⟨encrypt_length_ge p k s n, encrypt_take_magic p k s n,
    encrypt_version_byte p k s n⟩

/-- Dropping header and salt exposes nonce and AEAD output. -/
theorem AESGCMEncryptor.encrypt_drop_salt (p k s n : Str) (hs : s.length = SALT_SIZE) :
    (encrypt p k s n).drop 39 = n ++ aeadEncrypt (deriveKey k s) n p := by
  have hdec : encrypt p k s n =
      ((MAGIC_HEADER ++ [VERSION]) ++ s) ++
        (n ++ aeadEncrypt (deriveKey k s) n p) := by
    simp [encrypt, List.append_assoc]
  rw [hdec]
  apply List.drop_left'
  simp [MAGIC_HEADER, SALT_SIZE] at hs ⊢
  omega

/-- Dropping header, salt and nonce exposes the AEAD output. -/
theorem AESGCMEncryptor.encrypt_drop_nonce (p k s n : Str) (hs : s.length = SALT_SIZE)
    (hn : n.length = NONCE_SIZE) :
    (encrypt p k s n).drop 51 = aeadEncrypt (deriveKey k s) n p := by
  have hdec : encrypt p k s n =
      (((MAGIC_HEADER ++ [VERSION]) ++ s) ++ n) ++
        aeadEncrypt (deriveKey k s) n p := by
    simp [encrypt, List.append_assoc]
  rw [hdec]
  apply List.drop_left'
  simp [MAGIC_HEADER, SALT_SIZE, NONCE_SIZE] at hs hn ⊢
  omega

/-- Running decrypt on an envelope built by encrypt reaches the AEAD
primitive with the embedded salt and nonce and the key derived from the
supplied password. -/
theorem AESGCMEncryptor.decrypt_encrypt_eval (p k k' s n : Str) (hs : s.length = SALT_SIZE)
    (hn : n.length = NONCE_SIZE) :
    decrypt (encrypt p k s n) k' =
      match aeadDecrypt (deriveKey k' s) n (aeadEncrypt (deriveKey k s) n p) with
      | some pt => .ok pt
      | none => .error .InvalidPasswordError := by
  have hlen := encrypt_length p k s n hs hn
  have hsalt : ((encrypt p k s n).drop (MAGIC_HEADER.length + 1)).take SALT_SIZE = s := by
    show ((encrypt p k s n).drop 7).take SALT_SIZE = s
    rw [encrypt_drop_header]
    exact List.take_left' (by simpa using hs)
  have hnonce : ((encrypt p k s n).drop (MAGIC_HEADER.length + 1 + SALT_SIZE)).take NONCE_SIZE = n := by
    show ((encrypt p k s n).drop 39).take NONCE_SIZE = n
    rw [encrypt_drop_salt p k s n hs]
    exact List.take_left' (by simpa using hn)
  have hct : (encrypt p k s n).drop (MAGIC_HEADER.length + 1 + SALT_SIZE + NONCE_SIZE) =
      aeadEncrypt (deriveKey k s) n p := by
    show (encrypt p k s n).drop 51 = aeadEncrypt (deriveKey k s) n p
    exact encrypt_drop_nonce p k s n hs hn
  simp only [decrypt]
  rw [if_neg (show ¬ ((encrypt p k s n).length <
      MAGIC_HEADER.length + 1 + SALT_SIZE + NONCE_SIZE + 16) from by
    rw [hlen]
    simp [MAGIC_HEADER, SALT_SIZE, NONCE_SIZE])]
  rw [if_neg (not_not_intro (is_encrypted_encrypt p k s n))]
  rw [if_neg (not_not_intro (show (encrypt p k s n).getD MAGIC_HEADER.length 0 =
      VERSION from encrypt_version_byte p k s n))]
  rw [if_neg (not_not_intro (show (((encrypt p k s n).drop
      (MAGIC_HEADER.length + 1)).take SALT_SIZE).length = SALT_SIZE from by
    rw [hsalt]; exact hs))]
  rw [if_neg (not_not_intro (show (((encrypt p k s n).drop
      (MAGIC_HEADER.length + 1 + SALT_SIZE)).take NONCE_SIZE).length = NONCE_SIZE from by
    rw [hnonce]; exact hn))]
  rw [if_neg (show ¬ (((encrypt p k s n).drop
      (MAGIC_HEADER.length + 1 + SALT_SIZE + NONCE_SIZE)).length < 16) from by
    rw [hct, aeadEncrypt_length]; omega)]
  rw [hsalt, hnonce, hct]

/-- Key derivation distinguishes distinct passwords under a fixed salt. -/
theorem deriveKey_inj_password {p p' s : Str}
    (h : deriveKey p s = deriveKey p' s) : p = p' := by
  simp only [deriveKey] at h
  injection h with h1 h2
  exact List.append_cancel_right h2

/-- The entry just before the end of an AEAD output is its tag. -/
theorem aeadEncrypt_getD_tag (key nonce d : Str) :
    (aeadEncrypt key nonce d).getD (d.length + 15) 0 = aeadTag key nonce d := by
  simp only [aeadEncrypt]
  rw [List.append_assoc]
  rw [List.getD_append_right _ _ _ _ (by simp)]
  rw [List.getD_append_right _ _ _ _ (by simp)]
  simp

/-- Altering any single entry of an AEAD output makes tag verification
fail. -/
theorem aeadDecrypt_set_ne (key nonce d : Str) (j v : Nat)
    (hj : j < d.length + 16)
    (hv : v ≠ (aeadEncrypt key nonce d).getD j 0) :
    aeadDecrypt key nonce ((aeadEncrypt key nonce d).set j v) = none := by
  have hlen : ((aeadEncrypt key nonce d).set j v).length = d.length + 16 := by
    rw [List.length_set, aeadEncrypt_length]
  have htake : ((aeadEncrypt key nonce d).set j v).take
      (((aeadEncrypt key nonce d).set j v).length - 16) = d.set j v := by
    rw [hlen]
    rw [show d.length + 16 - 16 = d.length by omega]
    rw [List.set_take, aeadEncrypt_take]
  simp only [aeadDecrypt]
  rw [if_neg (by omega)]
  simp only [htake]
  rw [if_neg]
  intro hcontra
  by_cases hcase : j < d.length
  · have hset_ne : d.set j v ≠ d := by
      intro heq
      have h1 : (d.set j v).getD j 0 = d.getD j 0 := by rw [heq]
      rw [show (d.set j v).getD j 0 = v from by
        simp [List.getD, List.getElem?_set_self, hcase]] at h1
      have h2 : (aeadEncrypt key nonce d).getD j 0 = d.getD j 0 := by
        simp only [aeadEncrypt]
        rw [List.append_assoc, List.getD_append _ _ _ _ hcase]
      exact hv (by rw [h2, ← h1])
    have htag : ((aeadEncrypt key nonce d).set j v).getD (d.length + 15) 0 =
        aeadTag key nonce d := by
      rw [show ((aeadEncrypt key nonce d).set j v).getD (d.length + 15) 0 =
          (aeadEncrypt key nonce d).getD (d.length + 15) 0 from by
        simp [List.getD, List.getElem?_set_ne (by omega : j ≠ d.length + 15)]]
      exact aeadEncrypt_getD_tag key nonce d
    have htag' : (aeadEncrypt key nonce (d.set j v)).getD (d.length + 15) 0 =
        aeadTag key nonce (d.set j v) := by
      have h3 := aeadEncrypt_getD_tag key nonce (d.set j v)
      rwa [List.length_set] at h3
    rw [hcontra] at htag
    rw [htag'] at htag
    rcases aeadTag_inj htag.symm with ⟨_, _, hd⟩
    exact hset_ne hd.symm
  · have hset_eq : d.set j v = d :=
      List.set_eq_of_length_le (by omega)
    rw [hset_eq] at hcontra
    have hne : (aeadEncrypt key nonce d).set j v ≠ aeadEncrypt key nonce d := by
      intro heq
      have h1 : ((aeadEncrypt key nonce d).set j v).getD j 0 =
          (aeadEncrypt key nonce d).getD j 0 := by rw [heq]
      rw [show ((aeadEncrypt key nonce d).set j v).getD j 0 = v from by
        simp [List.getD, List.getElem?_set_self,
          show j < (aeadEncrypt key nonce d).length from by
            rw [aeadEncrypt_length]; omega]] at h1
      exact hv h1
    exact hne hcontra

/-- Decrypting an envelope whose ciphertext-or-tag region had one entry
altered fails authentication and reports InvalidPasswordError. -/
theorem AESGCMEncryptor.decrypt_tampered (p k s n : Str) (hs : s.length = SALT_SIZE)
    (hn : n.length = NONCE_SIZE) (i v : Nat) (h51 : 51 ≤ i)
    (hi : i < (encrypt p k s n).length)
    (hv : v ≠ (encrypt p k s n).getD i 0) :
    decrypt ((encrypt p k s n).set i v) k = .error .InvalidPasswordError := by
  have hlen := encrypt_length p k s n hs hn
  have hlen' : ((encrypt p k s n).set i v).length = 67 + p.length := by
    rw [List.length_set, hlen]
  have htake7 : ∀ m : Nat, m ≤ 7 → ((encrypt p k s n).set i v).take m =
      (encrypt p k s n).take m := by
    intro m hm
    exact set_take_of_le _ _ _ _ (by omega)
  have hgd6 : ((encrypt p k s n).set i v).getD 6 0 =
      (encrypt p k s n).getD 6 0 := by
    simp [List.getD, List.getElem?_set_ne (by omega : i ≠ 6)]
  have henc : is_encrypted ((encrypt p k s n).set i v) = true := by
    rw [is_encrypted_iff]
    refine ⟨by omega, ?_, ?_⟩
    · rw [htake7 6 (by omega)]
      exact encrypt_take_magic p k s n
    · rw [hgd6]
      exact encrypt_version_byte p k s n
  have hdrop7 : ((encrypt p k s n).set i v).drop 7 =
      (s ++ (n ++ aeadEncrypt (deriveKey k s) n p)).set (i - 7) v := by
    rw [set_drop_of_le _ _ _ _ (by omega), encrypt_drop_header]
  have hsalt : (((encrypt p k s n).set i v).drop (MAGIC_HEADER.length + 1)).take
      SALT_SIZE = s := by
    show (((encrypt p k s n).set i v).drop 7).take SALT_SIZE = s
    rw [hdrop7, set_take_of_le _ _ _ _ (by simp [SALT_SIZE]; omega)]
    exact List.take_left' (by simpa using hs)
  have hdrop39 : ((encrypt p k s n).set i v).drop 39 =
      (n ++ aeadEncrypt (deriveKey k s) n p).set (i - 39) v := by
    rw [set_drop_of_le _ _ _ _ (by omega), encrypt_drop_salt p k s n hs]
  have hnonce : (((encrypt p k s n).set i v).drop
      (MAGIC_HEADER.length + 1 + SALT_SIZE)).take NONCE_SIZE = n := by
    show (((encrypt p k s n).set i v).drop 39).take NONCE_SIZE = n
    rw [hdrop39, set_take_of_le _ _ _ _ (by simp [NONCE_SIZE]; omega)]
    exact List.take_left' (by simpa using hn)
  have hct : ((encrypt p k s n).set i v).drop
      (MAGIC_HEADER.length + 1 + SALT_SIZE + NONCE_SIZE) =
      (aeadEncrypt (deriveKey k s) n p).set (i - 51) v := by
    show ((encrypt p k s n).set i v).drop 51 =
      (aeadEncrypt (deriveKey k s) n p).set (i - 51) v
    rw [set_drop_of_le _ _ _ _ (by omega), encrypt_drop_nonce p k s n hs hn]
  have hctlen : ((aeadEncrypt (deriveKey k s) n p).set (i - 51) v).length =
      p.length + 16 := by
    rw [List.length_set, aeadEncrypt_length]
  have hgdi : (encrypt p k s n).getD i 0 =
      (aeadEncrypt (deriveKey k s) n p).getD (i - 51) 0 := by
    have h1 : ((encrypt p k s n).drop 51).getD (i - 51) 0 =
        (encrypt p k s n).getD (51 + (i - 51)) 0 := by
      simp [List.getD, List.getElem?_drop]
    rw [encrypt_drop_nonce p k s n hs hn] at h1
    rw [show 51 + (i - 51) = i from by omega] at h1
    exact h1.symm
  simp only [decrypt]
  rw [if_neg (show ¬ (((encrypt p k s n).set i v).length <
      MAGIC_HEADER.length + 1 + SALT_SIZE + NONCE_SIZE + 16) from by
    rw [hlen']
    simp [MAGIC_HEADER, SALT_SIZE, NONCE_SIZE])]
  rw [if_neg (not_not_intro henc)]
  rw [if_neg (not_not_intro (show ((encrypt p k s n).set i v).getD
      MAGIC_HEADER.length 0 = VERSION from by
    rw [show (MAGIC_HEADER.length : Nat) = 6 from by simp [MAGIC_HEADER], hgd6]
    exact encrypt_version_byte p k s n))]
  rw [if_neg (not_not_intro (show ((((encrypt p k s n).set i v).drop
      (MAGIC_HEADER.length + 1)).take SALT_SIZE).length = SALT_SIZE from by
    rw [hsalt]; exact hs))]
  rw [if_neg (not_not_intro (show ((((encrypt p k s n).set i v).drop
      (MAGIC_HEADER.length + 1 + SALT_SIZE)).take NONCE_SIZE).length = NONCE_SIZE from by
    rw [hnonce]; exact hn))]
  rw [if_neg (show ¬ ((((encrypt p k s n).set i v).drop
      (MAGIC_HEADER.length + 1 + SALT_SIZE + NONCE_SIZE)).length < 16) from by
    rw [hct, hctlen]; omega)]
  rw [hsalt, hnonce, hct]
  rw [aeadDecrypt_set_ne (deriveKey k s) n p (i - 51) v (by omega)
    (by rw [← hgdi]; exact hv)]

/-- C1: for every byte string p (including the empty byte string) and every
password k (including the empty string), decrypting the result of
encrypt(p, k) with the same password k returns exactly p, for any salt and
nonce of the documented sizes. -/
theorem C1_decrypt_encrypt_roundtrip (p k salt nonce : Str)
    (hs : salt.length = AESGCMEncryptor.SALT_SIZE)
    (hn : nonce.length = AESGCMEncryptor.NONCE_SIZE) :
    AESGCMEncryptor.decrypt (AESGCMEncryptor.encrypt p k salt nonce) k =
      .ok p := by
  rw [AESGCMEncryptor.decrypt_encrypt_eval p k k salt nonce hs hn,
    aeadDecrypt_aeadEncrypt]

/-- C1 witness: the round trip at the empty plaintext and empty password. -/
theorem C1_decrypt_encrypt_roundtrip_witness :
    (List.replicate 32 0 : Str).length = AESGCMEncryptor.SALT_SIZE ∧
    (List.replicate 12 0 : Str).length = AESGCMEncryptor.NONCE_SIZE ∧
    AESGCMEncryptor.decrypt
      (AESGCMEncryptor.encrypt [] [] (List.replicate 32 0)
        (List.replicate 12 0)) [] = .ok [] :=
  ⟨by decide, by decide,
    C1_decrypt_encrypt_roundtrip [] [] (List.replicate 32 0)
      (List.replicate 12 0) (by decide) (by decide)⟩

/-- C2: decrypting with a different password raises InvalidPasswordError;
altering any single entry of the ciphertext-and-tag region of a valid
envelope raises the same InvalidPasswordError, a kind distinct from the
structural DecryptionError; in both cases decrypt returns no plaintext. -/
theorem C2_wrong_password_and_tamper :
    (∀ p k1 k2 salt nonce : Str,
      salt.length = AESGCMEncryptor.SALT_SIZE →
      nonce.length = AESGCMEncryptor.NONCE_SIZE → k1 ≠ k2 →
      AESGCMEncryptor.decrypt (AESGCMEncryptor.encrypt p k1 salt nonce) k2 =
        .error .InvalidPasswordError) ∧
    (∀ p k salt nonce : Str, ∀ i v : Nat,
      salt.length = AESGCMEncryptor.SALT_SIZE →
      nonce.length = AESGCMEncryptor.NONCE_SIZE →
      51 ≤ i → i < (AESGCMEncryptor.encrypt p k salt nonce).length →
      v ≠ (AESGCMEncryptor.encrypt p k salt nonce).getD i 0 →
      AESGCMEncryptor.decrypt
        ((AESGCMEncryptor.encrypt p k salt nonce).set i v) k =
        .error .InvalidPasswordError) ∧
    AppError.InvalidPasswordError ≠ AppError.DecryptionError := by
  refine ⟨?_, ?_, by decide⟩
  · intro p k1 k2 salt nonce hs hn hne
    rw [AESGCMEncryptor.decrypt_encrypt_eval p k1 k2 salt nonce hs hn]
    rw [aeadDecrypt_wrong (deriveKey k1 salt) nonce (deriveKey k2 salt) nonce p
      (Or.inl (fun hk => hne (deriveKey_inj_password hk)))]
  · intro p k salt nonce i v hs hn h51 hi hv
    exact AESGCMEncryptor.decrypt_tampered p k salt nonce hs hn i v h51 hi hv

/-- C2 witness: a wrong password and a flipped ciphertext entry at concrete
inputs, both rejected with InvalidPasswordError. -/
theorem C2_wrong_password_and_tamper_witness :
    AESGCMEncryptor.decrypt
      (AESGCMEncryptor.encrypt [7] [1] (List.replicate 32 0)
        (List.replicate 12 0)) [2] = .error .InvalidPasswordError ∧
    AESGCMEncryptor.decrypt
      ((AESGCMEncryptor.encrypt [7] [1] (List.replicate 32 0)
        (List.replicate 12 0)).set 51 9) [1] =
      .error .InvalidPasswordError :=
  ⟨C2_wrong_password_and_tamper.1 [7] [1] [2] (List.replicate 32 0)
      (List.replicate 12 0) (by decide) (by decide) (by decide),
    C2_wrong_password_and_tamper.2.1 [7] [1] (List.replicate 32 0)
      (List.replicate 12 0) 51 9 (by decide) (by decide) (by decide)
      (by decide) (by decide)⟩

/-- C4: every envelope starts with the six magic bytes and the version
byte one, its length is 67 plus the plaintext length, hence at least 67,
with equality exactly for the empty plaintext. -/
theorem C4_envelope_structure (p k salt nonce : Str)
    (hs : salt.length = AESGCMEncryptor.SALT_SIZE)
    (hn : nonce.length = AESGCMEncryptor.NONCE_SIZE) :
    (AESGCMEncryptor.encrypt p k salt nonce).take 7 =
      AESGCMEncryptor.MAGIC_HEADER ++ [1] ∧
    (AESGCMEncryptor.encrypt p k salt nonce).length = 67 + p.length ∧
    67 ≤ (AESGCMEncryptor.encrypt p k salt nonce).length ∧
    ((AESGCMEncryptor.encrypt p k salt nonce).length = 67 ↔ p = []) := by
  have hlen := AESGCMEncryptor.encrypt_length p k salt nonce hs hn
  refine ⟨?_, hlen, by omega, ?_⟩
  · rw [AESGCMEncryptor.encrypt_decomp]
    exact List.take_left' (by simp [AESGCMEncryptor.MAGIC_HEADER,
      AESGCMEncryptor.VERSION])
  · constructor
    · intro h
      have : p.length = 0 := by omega
      exact List.eq_nil_of_length_eq_zero this
    · intro h
      subst h
      simpa using hlen

/-- C4 witness: the envelope structure at a concrete one-byte plaintext. -/
theorem C4_envelope_structure_witness :
    (AESGCMEncryptor.encrypt [5] [1] (List.replicate 32 0)
      (List.replicate 12 0)).take 7 =
      AESGCMEncryptor.MAGIC_HEADER ++ [1] ∧
    (AESGCMEncryptor.encrypt [5] [1] (List.replicate 32 0)
      (List.replicate 12 0)).length = 67 + ([5] : Str).length ∧
    67 ≤ (AESGCMEncryptor.encrypt [5] [1] (List.replicate 32 0)
      (List.replicate 12 0)).length ∧
    ((AESGCMEncryptor.encrypt [5] [1] (List.replicate 32 0)
      (List.replicate 12 0)).length = 67 ↔ ([5] : Str) = []) :=
  C4_envelope_structure [5] [1] (List.replicate 32 0) (List.replicate 12 0)
    (by decide) (by decide)

/-- Parsing inverts serialization for single naturals. -/
theorem parseNat_enc (x : Nat) (r : Str) :
    parseNat (encNat x ++ r) = some (x, r) := rfl

/-- Parsing inverts serialization for strings. -/
theorem parseStr_enc (s : Str) (r : Str) :
    parseStr (encStr s ++ r) = some (s, r) := by
  simp only [encStr, parseStr, List.cons_append, parseNat]
  rw [if_pos (by simp)]
  rw [List.take_left, List.drop_left]

/-- Parsing inverts serialization for optional values. -/
theorem parseOptWith_enc {α : Type} (p : Str → Option (α × Str))
    (enc : α → Str) (henc : ∀ a r, p (enc a ++ r) = some (a, r))
    (o : Option α) (r : Str) :
    parseOptWith p (encOptWith enc o ++ r) = some (o, r) := by
  cases o with
  | none => rfl
  | some a =>
    simp only [encOptWith, parseOptWith, List.cons_append]
    rw [henc a r]

/-- Parsing inverts serialization for item sequences of known length. -/
theorem parseCount_enc {α : Type} (p : Str → Option (α × Str))
    (enc : α → Str) (henc : ∀ a r, p (enc a ++ r) = some (a, r))
    (xs : List α) (r : Str) :
    parseCount p xs.length ((xs.map enc).flatten ++ r) = some (xs, r) := by
  induction xs generalizing r with
  | nil => rfl
  | cons a t ih =>
    simp only [List.map_cons, List.flatten_cons, List.length_cons,
      List.append_assoc, parseCount, henc, ih]

/-- Parsing inverts serialization for lists. -/
theorem parseListWith_enc {α : Type} (p : Str → Option (α × Str))
    (enc : α → Str) (henc : ∀ a r, p (enc a ++ r) = some (a, r))
    (xs : List α) (r : Str) :
    parseListWith p (encListWith enc xs ++ r) = some (xs, r) := by
  simp only [encListWith, parseListWith, List.cons_append, parseNat]
  exact parseCount_enc p enc henc xs r

/-- Parsing inverts serialization for files-list entries. -/
theorem parseFileDict_enc (d : FileDict) (r : Str) :
    parseFileDict (encFileDict d ++ r) = some (d, r) := by
  cases d with
  | mk path size checksum cb =>
    simp only [encFileDict, parseFileDict, List.append_assoc,
      parseOptWith_enc parseStr encStr parseStr_enc,
      parseOptWith_enc parseNat encNat parseNat_enc]

/-- Parsing inverts serialization for container documents. -/
theorem parseSnapDoc_enc (d : SnapDoc) (r : Str) :
    parseSnapDoc (encSnapDoc d ++ r) = some (d, r) := by
  cases d with
  | mk root created meta dirs fls =>
    simp only [encSnapDoc, parseSnapDoc, List.append_assoc,
      parseOptWith_enc parseStr encStr parseStr_enc,
      parseOptWith_enc parseNat encNat parseNat_enc,
      parseOptWith_enc (parseListWith parseStr) (encListWith encStr)
        (parseListWith_enc parseStr encStr parseStr_enc),
      parseOptWith_enc (parseListWith parseFileDict) (encListWith encFileDict)
        (parseListWith_enc parseFileDict encFileDict parseFileDict_enc)]

/-- json.loads inverts json.dumps. -/
theorem json_loads_dumps (d : SnapDoc) : json_loads (json_dumps d) = some d := by
  simp only [json_loads, json_dumps]
  rw [show encSnapDoc d = encSnapDoc d ++ [] from by simp]
  rw [parseSnapDoc_enc d []]

/-- A byte string whose first byte is not the first magic byte is not
detected as encrypted. -/
theorem AESGCMEncryptor.is_encrypted_false_of_head (b : Nat) (rest : Str) (hb : b ≠ 83) :
    is_encrypted (b :: rest) = false := by
  cases h : is_encrypted (b :: rest) with
  | false => rfl
  | true =>
    exfalso
    rcases (is_encrypted_iff _).mp h with ⟨_, htake, _⟩
    have hb' : b = 83 := by
      have h2 := congrArg (fun l : Str => l.getD 0 0) htake
      simpa [MAGIC_HEADER, List.getD] using h2
    exact hb hb'

/-- C3: is_encrypted holds exactly on byte strings of length at least
seven that begin with the magic bytes and carry version byte one; hence it
holds on every encrypt output, fails on the empty byte string, fails on
every plain JSON document produced by json.dumps, and fails on data with
the correct magic but a different version byte. -/
theorem C3_is_encrypted_characterization :
    (∀ data : Str, AESGCMEncryptor.is_encrypted data = true ↔
      7 ≤ data.length ∧ data.take 6 = AESGCMEncryptor.MAGIC_HEADER ∧
        data.getD 6 0 = 1) ∧
    (∀ p k salt nonce : Str,
      AESGCMEncryptor.is_encrypted (AESGCMEncryptor.encrypt p k salt nonce) =
        true) ∧
    AESGCMEncryptor.is_encrypted [] = false ∧
    (∀ doc : SnapDoc, AESGCMEncryptor.is_encrypted (json_dumps doc) = false) ∧
    (∀ data : Str, data.take 6 = AESGCMEncryptor.MAGIC_HEADER →
      data.getD 6 0 ≠ 1 → AESGCMEncryptor.is_encrypted data = false) := by
  refine ⟨AESGCMEncryptor.is_encrypted_iff,
    AESGCMEncryptor.is_encrypted_encrypt, rfl, ?_, ?_⟩
  · intro doc
    cases hroot : doc.root_path with
    | none =>
      have hshape : json_dumps doc = 0 :: (encOptWith encNat doc.created_at ++
          encOptWith encNat doc.metadata ++
          encOptWith (encListWith encStr) doc.directories ++
          encOptWith (encListWith encFileDict) doc.files) := by
        simp [json_dumps, encSnapDoc, hroot, encOptWith, List.append_assoc]
      rw [hshape]
      exact AESGCMEncryptor.is_encrypted_false_of_head 0 _ (by omega)
    | some s =>
      have hshape : json_dumps doc = 1 :: (encStr s ++
          (encOptWith encNat doc.created_at ++
          encOptWith encNat doc.metadata ++
          encOptWith (encListWith encStr) doc.directories ++
          encOptWith (encListWith encFileDict) doc.files)) := by
        simp [json_dumps, encSnapDoc, hroot, encOptWith, List.append_assoc]
      rw [hshape]
      exact AESGCMEncryptor.is_encrypted_false_of_head 1 _ (by omega)
  · intro data _ hver
    cases h : AESGCMEncryptor.is_encrypted data with
    | false => rfl
    | true =>
      exfalso
      exact hver ((AESGCMEncryptor.is_encrypted_iff data).mp h).2.2

/-- C3 witness: the detection predicate at a concrete envelope and at a
concrete magic-but-wrong-version byte string. -/
theorem C3_is_encrypted_characterization_witness :
    AESGCMEncryptor.is_encrypted
      (AESGCMEncryptor.encrypt [1] [2] (List.replicate 32 0)
        (List.replicate 12 0)) = true ∧
    AESGCMEncryptor.is_encrypted [83, 65, 71, 69, 78, 67, 2] = false :=
  ⟨C3_is_encrypted_characterization.2.1 [1] [2] (List.replicate 32 0)
      (List.replicate 12 0),
    C3_is_encrypted_characterization.2.2.2.2 [83, 65, 71, 69, 78, 67, 2]
      (by decide) (by decide)⟩

/-- The set-size comparison used by validate detects exactly the
duplicate-free lists. -/
theorem dedup_length_iff (l : List Str) :
    l.dedup.length = l.length ↔ l.Nodup := by
  constructor
  · intro h
    exact List.dedup_eq_self.mp (List.Sublist.eq_of_length (List.dedup_sublist l) h)
  · intro h
    rw [List.dedup_eq_self.mpr h]

/-- Variant of the set-size comparison for the mapped path list, stated
against the file-list length that simplification produces. -/
theorem nodup_iff_dedup_length_map (files : List FileEntry) :
    (files.map FileEntry.relative_path).dedup.length = files.length ↔
      (files.map FileEntry.relative_path).Nodup := by
  constructor
  · intro h
    exact (dedup_length_iff _).mp (by simpa using h)
  · intro h
    have h2 := (dedup_length_iff _).mpr h
    simpa using h2

/-- validate succeeds exactly on the four invariants. -/
theorem validate_ok_iff (s : DirectorySnapshot) :
    DirectorySnapshot.validate s = .ok true ↔ snapshotInvariants s := by
  unfold DirectorySnapshot.validate snapshotInvariants
  split_ifs with h1 h2 h3 h4 <;>
    simp_all [List.all_eq_true, dedup_length_iff, nodup_iff_dedup_length_map]

/-- validate either succeeds with True or raises ValidationError. -/
theorem validate_cases (s : DirectorySnapshot) :
    DirectorySnapshot.validate s = .ok true ∨
      DirectorySnapshot.validate s = .error .ValidationError := by
  unfold DirectorySnapshot.validate
  split_ifs <;> simp

/-- C8: validate returns True exactly when the four invariants hold (non
empty root path, every checksum matching, no duplicate file paths, no
duplicate directory paths) and raises ValidationError exactly when one of
them fails. -/
theorem C8_validate_characterization (s : DirectorySnapshot) :
    (DirectorySnapshot.validate s = .ok true ↔ snapshotInvariants s) ∧
    (DirectorySnapshot.validate s = .error .ValidationError ↔
      ¬ snapshotInvariants s) := by
  refine ⟨validate_ok_iff s, ?_, ?_⟩
  · intro herr hinv
    rw [(validate_ok_iff s).mpr hinv] at herr
    cases herr
  · intro hninv
    rcases validate_cases s with h | h
    · exact absurd ((validate_ok_iff s).mp h) hninv
    · exact h

/-- C8 witness: the characterization applied to a concrete snapshot with
two identical file paths, which fails validation. -/
theorem C8_validate_characterization_witness :
    (DirectorySnapshot.validate
      { root_path := [97], directories := [],
        files := [FileEntry.make [98] [1], FileEntry.make [98] [2]],
        created_at := 0, metadata := 0 } = .error .ValidationError ↔
      ¬ snapshotInvariants
      { root_path := [97], directories := [],
        files := [FileEntry.make [98] [1], FileEntry.make [98] [2]],
        created_at := 0, metadata := 0 }) :=
  (C8_validate_characterization _).2

/-- C5, evaluated at the failing input: a container whose single file
entry declares a checksum different from the digest of its decoded
content.  FileEntry.from_dict raises a bare ValidationError, and the load
except chain, whose only re-raised kinds are the decryption family and
InvalidSnapshotError, wraps it into RepositoryError, so RepositoryError
and not ValidationError or InvalidSnapshotError reaches the caller. -/
theorem C5_checksum_mismatch_reaches_caller_as_repository_error :
    JsonSnapshotRepository.load [112] none
      { files := [([112], json_dumps
          { root_path := some [97], created_at := some 0, metadata := some 0,
            directories := some [],
            files := some [{ path := some [98], size := some 1,
                             checksum := some [99],
                             content_base64 := some [98] }] })],
        dirs := [] } = .error .RepositoryError := by rfl

/-- C6: saving any snapshot that fails validation raises (wrapped as
RepositoryError by the save except chain) and leaves the file system
untouched: no file is written and no directory is created. -/
theorem C6_invalid_snapshot_save_no_io (s : DirectorySnapshot) (path : Str)
    (password : Option Str) (salt nonce : Str) (fs : FS) (e : AppError)
    (hinv : DirectorySnapshot.validate s = .error e) :
    (JsonSnapshotRepository.save s path password salt nonce fs).1 =
      .error .RepositoryError ∧
    (JsonSnapshotRepository.save s path password salt nonce fs).2 = fs := by
  simp only [JsonSnapshotRepository.save, hinv]
  exact ⟨rfl, trivial⟩

/-- C6 witness: a snapshot with an empty root path is rejected by save and
the file system is returned unchanged. -/
theorem C6_invalid_snapshot_save_no_io_witness :
    DirectorySnapshot.validate
      { root_path := [], directories := [], files := [],
        created_at := 0, metadata := 0 } = .error .ValidationError ∧
    (JsonSnapshotRepository.save
      { root_path := [], directories := [], files := [],
        created_at := 0, metadata := 0 } [112] none [] []
      { files := [], dirs := [] }).1 = .error .RepositoryError ∧
    (JsonSnapshotRepository.save
      { root_path := [], directories := [], files := [],
        created_at := 0, metadata := 0 } [112] none [] []
      { files := [], dirs := [] }).2 = { files := [], dirs := [] } :=
  ⟨rfl,
    (C6_invalid_snapshot_save_no_io
      { root_path := [], directories := [], files := [],
        created_at := 0, metadata := 0 } [112] none [] []
      { files := [], dirs := [] } .ValidationError rfl).1,
    (C6_invalid_snapshot_save_no_io
      { root_path := [], directories := [], files := [],
        created_at := 0, metadata := 0 } [112] none [] []
      { files := [], dirs := [] } .ValidationError rfl).2⟩

/-- Bind on a raised error propagates the error. -/
theorem exceptErrorBind {ε α β : Type} (e : ε) (f : α → Except ε β) :
    (Except.error e >>= f) = Except.error e := rfl

/-- Bind on a successful result applies the continuation. -/
theorem exceptOkBind {ε α β : Type} (a : α) (f : α → Except ε β) :
    (Except.ok a >>= f) = f a := rfl

/-- C10: for any stored container detected as encrypted, loading with the
empty-string password fails with the decryption-required DecryptionError
exactly as loading with no password does (the two loads are equal), even
though the encryption service itself accepts the empty password, for which
encrypt and decrypt round-trip. -/
theorem C10_empty_password_treated_as_missing (fs : FS) (path bytes : Str)
    (hread : FS.read fs path = some bytes)
    (henc : AESGCMEncryptor.is_encrypted bytes = true) :
    JsonSnapshotRepository.load path (some []) fs =
      .error .DecryptionError ∧
    JsonSnapshotRepository.load path (some []) fs =
      JsonSnapshotRepository.load path none fs ∧
    (∀ p salt nonce : Str, salt.length = AESGCMEncryptor.SALT_SIZE →
      nonce.length = AESGCMEncryptor.NONCE_SIZE →
      AESGCMEncryptor.decrypt (AESGCMEncryptor.encrypt p [] salt nonce) [] =
        .ok p) := by
  have hbody : JsonSnapshotRepository.loadBody bytes (some []) =
      .error .DecryptionError := by
    simp [JsonSnapshotRepository.loadBody, henc, exceptErrorBind]
  have hbody' : JsonSnapshotRepository.loadBody bytes none =
      .error .DecryptionError := by
    simp [JsonSnapshotRepository.loadBody, henc, exceptErrorBind]
  refine ⟨?_, ?_, ?_⟩
  · simp [JsonSnapshotRepository.load, hread, hbody,
      JsonSnapshotRepository.loadWrap, AppError.isDecryptionFamily]
  · simp [JsonSnapshotRepository.load, hread, hbody, hbody']
  · intro p salt nonce hs hn
    rw [AESGCMEncryptor.decrypt_encrypt_eval p [] [] salt nonce hs hn,
      aeadDecrypt_aeadEncrypt]

/-- C10 witness: a concrete encrypted container loaded with the empty
password, and the empty-password round trip of the encryption service. -/
theorem C10_empty_password_treated_as_missing_witness :
    JsonSnapshotRepository.load [112] (some [])
      { files := [([112], AESGCMEncryptor.encrypt [1] []
          (List.replicate 32 0) (List.replicate 12 0))], dirs := [] } =
      .error .DecryptionError ∧
    AESGCMEncryptor.decrypt
      (AESGCMEncryptor.encrypt [2] [] (List.replicate 32 0)
        (List.replicate 12 0)) [] = .ok [2] :=
  ⟨(C10_empty_password_treated_as_missing
      { files := [([112], AESGCMEncryptor.encrypt [1] []
          (List.replicate 32 0) (List.replicate 12 0))], dirs := [] }
      [112] (AESGCMEncryptor.encrypt [1] [] (List.replicate 32 0)
        (List.replicate 12 0)) rfl
      (AESGCMEncryptor.is_encrypted_encrypt [1] [] (List.replicate 32 0)
        (List.replicate 12 0))).1,
    (C10_empty_password_treated_as_missing
      { files := [([112], AESGCMEncryptor.encrypt [1] []
          (List.replicate 32 0) (List.replicate 12 0))], dirs := [] }
      [112] (AESGCMEncryptor.encrypt [1] [] (List.replicate 32 0)
        (List.replicate 12 0)) rfl
      (AESGCMEncryptor.is_encrypted_encrypt [1] [] (List.replicate 32 0)
        (List.replicate 12 0))).2.2 [2] (List.replicate 32 0)
      (List.replicate 12 0) (by decide) (by decide)⟩

/-- The per-file progress entries of one pass have non-decreasing current
values. -/
theorem pairwise_pass_monotone (n : Nat) :
    List.Pairwise (fun a b : Nat × Nat => a.1 ≤ b.1)
      ((List.range n).map (fun i => (i + 1, n))) := by
  apply List.pairwise_map.mpr
  apply List.Pairwise.imp ?_ (List.pairwise_lt_range n)
  intro a b h
  omega

/-- C9 counterexample: in a scan of two matching files the delivered
progress sequence is (0,2), (1,2), (2,2) from the listing pass followed by
(1,2), (2,2) from the encoding pass, so a later call reports a current
value smaller than an earlier one. -/
theorem C9_counterexample_progress_not_monotone :
    ¬ List.Pairwise (fun a b : Nat × Nat => a.1 ≤ b.1) (scan_progress 2) := by
  decide

/-- C9 as amended: the total is fixed at the matching-file count across
every delivered call, and the current values are non-decreasing within the
listing pass and within the encoding pass separately; the sequence is the
concatenation of the two passes, with the current value resetting when the
encoding pass begins. -/
theorem C9_amended_progress (n : Nat) :
    (∀ pr ∈ scan_progress n, pr.2 = n) ∧
    List.Pairwise (fun a b : Nat × Nat => a.1 ≤ b.1)
      (list_files_progress n) ∧
    List.Pairwise (fun a b : Nat × Nat => a.1 ≤ b.1)
      ((List.range n).map (fun i => (i + 1, n))) ∧
    scan_progress n = list_files_progress n ++
      (List.range n).map (fun i => (i + 1, n)) := by
  refine ⟨?_, ?_, pairwise_pass_monotone n, rfl⟩
  · intro pr hpr
    simp only [scan_progress, list_files_progress, List.cons_append,
      List.mem_cons, List.mem_append, List.mem_map, List.mem_range] at hpr
    rcases hpr with h | ⟨i, _, h⟩ | ⟨i, _, h⟩
    · rw [h]
    · rw [← h]
    · rw [← h]
  · rw [list_files_progress]
    apply List.Pairwise.cons
    · intro b hb
      simp only [List.mem_map, List.mem_range] at hb
      rcases hb with ⟨i, _, h⟩
      rw [← h]
      exact Nat.zero_le _
    · exact pairwise_pass_monotone n

/-- C9 amended witness: the amended statement at a three-file scan. -/
theorem C9_amended_progress_witness :
    (∀ pr ∈ scan_progress 3, pr.2 = 3) ∧
    List.Pairwise (fun a b : Nat × Nat => a.1 ≤ b.1)
      (list_files_progress 3) ∧
    List.Pairwise (fun a b : Nat × Nat => a.1 ≤ b.1)
      ((List.range 3).map (fun i => (i + 1, 3))) ∧
    scan_progress 3 = list_files_progress 3 ++
      (List.range 3).map (fun i => (i + 1, 3)) :=
  C9_amended_progress 3

/-- Reading back a freshly written file returns the written bytes. -/
theorem FS.read_write (fs : FS) (p bytes : Str) :
    (fs.write p bytes).read p = some bytes := by
  simp [FS.read, FS.write, List.find?]

/-- Conversion to dicts succeeds on entries that carry encoded content. -/
theorem mapM_to_dict_encoded (files : List FileEntry) :
    (files.map (fun f =>
      f.set_encoded_content (Base64Encoder.encode f.content))).mapM
        FileEntry.to_dict = .ok (files.map entryDict) := by
  induction files with
  | nil => rfl
  | cons f t ih =>
    rw [List.map_cons, List.mapM_cons, List.map_cons]
    have hf : FileEntry.to_dict
        (f.set_encoded_content (Base64Encoder.encode f.content)) =
        .ok (entryDict f) := rfl
    rw [hf, exceptOkBind, ih, exceptOkBind]
    rfl

/-- Evaluation of save on a valid snapshot with a non-empty password. -/
theorem save_eval (s : DirectorySnapshot) (path pw salt nonce : Str) (fs : FS)
    (hval : DirectorySnapshot.validate s = .ok true) (hpw : pw ≠ []) :
    JsonSnapshotRepository.save s path (some pw) salt nonce fs =
      (.ok (), ((if dirname path ≠ [] then fs.makedirs (dirname path)
        else fs).write path
          (AESGCMEncryptor.encrypt (json_dumps (savedDoc s)) pw salt nonce))) := by
  simp only [JsonSnapshotRepository.save, hval, DirectorySnapshot.to_dict,
    mapM_to_dict_encoded, Except.map_ok, if_neg hpw]
  rfl

/-- On the modelled POSIX platform path normalization is the identity. -/
theorem normalize_path_id (p : Str) : normalize_path p = p := by
  have h : (fun c : Nat => if c = 47 then 47 else c) = fun c => c := by
    funext c
    split_ifs with h
    · omega
    · rfl
  simp [normalize_path, h]

/-- Entries built by the constructor always pass the checksum check. -/
theorem validate_checksum_make (p c : Str) :
    (FileEntry.make p c).validate_checksum = true := by
  simp [FileEntry.make, FileEntry.validate_checksum]

/-- Loading one saved entry dict succeeds and rebuilds the entry, provided
the original entry passed the checksum check. -/
theorem load_entry_eval (f : FileEntry) (hck : f.validate_checksum = true) :
    (if (entryDict f).path.isNone || (entryDict f).content_base64.isNone then
      Except.error AppError.InvalidSnapshotError
    else FileEntry.from_dict (entryDict f)
      (Base64Encoder.decode ((entryDict f).content_base64.getD []))) =
    .ok (reloadEntry f) := by
  have hchk : sha256hex f.content = f.checksum := by
    simpa [FileEntry.validate_checksum, beq_iff_eq] using hck
  simp only [entryDict, Option.isNone_some, Bool.or_self, Bool.false_eq_true,
    if_false, Option.getD_some]
  simp only [FileEntry.from_dict, Base64Encoder.decode, Base64Encoder.encode]
  rw [if_neg (by simp [FileEntry.make, hchk])]
  rfl

/-- Loading the saved entry dicts of a checksum-valid file list rebuilds
each entry. -/
theorem mapM_load_entries (files : List FileEntry)
    (hcks : ∀ f ∈ files, f.validate_checksum = true) :
    (files.map entryDict).mapM (fun fd =>
      if fd.path.isNone || fd.content_base64.isNone then
        Except.error AppError.InvalidSnapshotError
      else FileEntry.from_dict fd
        (Base64Encoder.decode (fd.content_base64.getD []))) =
    .ok (files.map reloadEntry) := by
  induction files with
  | nil => rfl
  | cons f t ih =>
    rw [List.map_cons, List.mapM_cons,
      load_entry_eval f (hcks f (by simp)), exceptOkBind,
      ih (fun g hg => hcks g (by simp [hg])), exceptOkBind, List.map_cons]
    rfl

/-- Folding add_file appends the files in order and changes nothing else. -/
theorem foldl_add_file (fs : List FileEntry) (s0 : DirectorySnapshot) :
    fs.foldl DirectorySnapshot.add_file s0 =
      { s0 with files := s0.files ++ fs } := by
  induction fs generalizing s0 with
  | nil => simp
  | cons f t ih =>
    rw [List.foldl_cons, ih]
    simp [DirectorySnapshot.add_file]

/-- Folding add_directory appends exactly the non-empty non-dot paths in
order and changes nothing else. -/
theorem foldl_add_directory (ds : List Str) (s0 : DirectorySnapshot) :
    ds.foldl DirectorySnapshot.add_directory s0 =
      { s0 with directories := s0.directories ++
          ds.filter (fun d => decide (d ≠ [] ∧ d ≠ [46])) } := by
  induction ds generalizing s0 with
  | nil => simp
  | cons d t ih =>
    rw [List.foldl_cons, ih]
    by_cases h : d ≠ [] ∧ d ≠ [46]
    · rw [List.filter_cons, if_pos (by simpa using h)]
      simp [DirectorySnapshot.add_directory, if_pos h]
    · rw [List.filter_cons, if_neg (by simpa using h)]
      simp [DirectorySnapshot.add_directory, if_neg h]

/-- The snapshot load rebuilds from a saved document, componentwise. -/
theorem loadedSnapshot_eq (s : DirectorySnapshot) :
    loadedSnapshot s =
      { root_path := s.root_path
        directories := s.directories.filter (fun d => decide (d ≠ [] ∧ d ≠ [46]))
        files := s.files.map reloadEntry
        created_at := s.created_at
        metadata := s.metadata } := by
  simp only [loadedSnapshot, DirectorySnapshot.from_dict, savedDoc,
    Option.getD_some, foldl_add_directory, foldl_add_file]
  simp

/-- The reloaded snapshot of a valid snapshot is itself valid. -/
theorem validate_loadedSnapshot (s : DirectorySnapshot)
    (hval : DirectorySnapshot.validate s = .ok true) :
    DirectorySnapshot.validate (loadedSnapshot s) = .ok true := by
  have hinv := (validate_ok_iff s).mp hval
  rw [validate_ok_iff, loadedSnapshot_eq]
  refine ⟨hinv.1, ?_, ?_, ?_⟩
  · intro f hf
    simp only [List.mem_map] at hf
    rcases hf with ⟨g, _, rfl⟩
    exact validate_checksum_make _ _
  · show ((s.files.map reloadEntry).map FileEntry.relative_path).Nodup
    rw [List.map_map]
    have h : (FileEntry.relative_path ∘ reloadEntry) = FileEntry.relative_path := by
      funext f
      simp [reloadEntry, FileEntry.make, normalize_path_id, Function.comp]
    rw [h]
    exact hinv.2.2.1
  · exact List.Nodup.filter _ hinv.2.2.2

/-- An encrypted byte string loaded without a password stops at the
password gate. -/
theorem loadBody_encrypted_nopw (bytes : Str)
    (henc : AESGCMEncryptor.is_encrypted bytes = true) :
    JsonSnapshotRepository.loadBody bytes none = .error .DecryptionError := by
  simp [JsonSnapshotRepository.loadBody, henc, exceptErrorBind]

/-- Loading the saved container with the correct password rebuilds the
snapshot. -/
theorem loadBody_saved (s : DirectorySnapshot) (pw salt nonce : Str)
    (hval : DirectorySnapshot.validate s = .ok true) (hpw : pw ≠ [])
    (hs : salt.length = AESGCMEncryptor.SALT_SIZE)
    (hn : nonce.length = AESGCMEncryptor.NONCE_SIZE) :
    JsonSnapshotRepository.loadBody
      (AESGCMEncryptor.encrypt (json_dumps (savedDoc s)) pw salt nonce)
      (some pw) = .ok (loadedSnapshot s) := by
  have hinv := (validate_ok_iff s).mp hval
  have hdec : AESGCMEncryptor.decrypt
      (AESGCMEncryptor.encrypt (json_dumps (savedDoc s)) pw salt nonce) pw =
      .ok (json_dumps (savedDoc s)) := by
    rw [AESGCMEncryptor.decrypt_encrypt_eval _ _ _ _ _ hs hn,
      aeadDecrypt_aeadEncrypt]
  simp only [JsonSnapshotRepository.loadBody,
    AESGCMEncryptor.is_encrypted_encrypt, if_true, if_neg hpw, hdec,
    exceptOkBind, json_loads_dumps]
  simp only [savedDoc, Option.isNone_some, Bool.false_eq_true, if_false,
    Option.getD_some]
  rw [mapM_load_entries s.files hinv.2.1, exceptOkBind]
  have hsnap : DirectorySnapshot.from_dict
      { root_path := some s.root_path, created_at := some s.created_at,
        metadata := some s.metadata, directories := some s.directories,
        files := some (s.files.map entryDict) } (s.files.map reloadEntry) =
      loadedSnapshot s := rfl
  rw [hsnap, validate_loadedSnapshot s hval, exceptOkBind]

/-- Loading the saved container with a different non-empty password fails
authentication. -/
theorem loadBody_saved_wrong (s : DirectorySnapshot) (pw pw2 salt nonce : Str)
    (hpw2 : pw2 ≠ []) (hne : pw2 ≠ pw)
    (hs : salt.length = AESGCMEncryptor.SALT_SIZE)
    (hn : nonce.length = AESGCMEncryptor.NONCE_SIZE) :
    JsonSnapshotRepository.loadBody
      (AESGCMEncryptor.encrypt (json_dumps (savedDoc s)) pw salt nonce)
      (some pw2) = .error .InvalidPasswordError := by
  have hdec : AESGCMEncryptor.decrypt
      (AESGCMEncryptor.encrypt (json_dumps (savedDoc s)) pw salt nonce) pw2 =
      .error .InvalidPasswordError := by
    rw [AESGCMEncryptor.decrypt_encrypt_eval _ _ _ _ _ hs hn,
      aeadDecrypt_wrong _ _ _ _ _
        (Or.inl (fun hk => hne (deriveKey_inj_password hk.symm)))]
  simp only [JsonSnapshotRepository.loadBody,
    AESGCMEncryptor.is_encrypted_encrypt, if_true, if_neg hpw2, hdec,
    exceptErrorBind]

/-- C7: for every valid well-formed snapshot saved with a non-empty
password, loading with no password fails with the decryption-required
DecryptionError, loading with the correct password returns a snapshot
whose file set (paths, contents, sizes, checksums) equals the original,
and loading with a different non-empty password fails with the
authentication InvalidPasswordError. -/
theorem C7_encrypted_snapshot_roundtrip (s : DirectorySnapshot)
    (path pw salt nonce : Str) (fs : FS)
    (hval : DirectorySnapshot.validate s = .ok true)
    (hwf : ∀ f ∈ s.files, f.size = f.content.length)
    (hpw : pw ≠ [])
    (hs : salt.length = AESGCMEncryptor.SALT_SIZE)
    (hn : nonce.length = AESGCMEncryptor.NONCE_SIZE) :
    (JsonSnapshotRepository.save s path (some pw) salt nonce fs).1 = .ok () ∧
    JsonSnapshotRepository.load path none
      (JsonSnapshotRepository.save s path (some pw) salt nonce fs).2 =
      .error .DecryptionError ∧
    (∃ s' : DirectorySnapshot,
      JsonSnapshotRepository.load path (some pw)
        (JsonSnapshotRepository.save s path (some pw) salt nonce fs).2 =
        .ok s' ∧
      s'.files.map (fun f => (f.relative_path, f.content, f.size, f.checksum)) =
        s.files.map (fun f => (f.relative_path, f.content, f.size, f.checksum))) ∧
    (∀ pw2 : Str, pw2 ≠ [] → pw2 ≠ pw →
      JsonSnapshotRepository.load path (some pw2)
        (JsonSnapshotRepository.save s path (some pw) salt nonce fs).2 =
        .error .InvalidPasswordError) := by
  have hinv := (validate_ok_iff s).mp hval
  have hsave := save_eval s path pw salt nonce fs hval hpw
  have hload : ∀ password : Option Str,
      JsonSnapshotRepository.load path password
        (JsonSnapshotRepository.save s path (some pw) salt nonce fs).2 =
      match JsonSnapshotRepository.loadBody
          (AESGCMEncryptor.encrypt (json_dumps (savedDoc s)) pw salt nonce)
          password with
      | .ok snap => .ok snap
      | .error e => .error (JsonSnapshotRepository.loadWrap e) := by
    intro password
    rw [hsave]
    simp only [JsonSnapshotRepository.load, FS.read_write]
  refine ⟨by rw [hsave], ?_, ?_, ?_⟩
  · rw [hload none, loadBody_encrypted_nopw _
      (AESGCMEncryptor.is_encrypted_encrypt _ _ _ _)]
    rfl
  · refine ⟨loadedSnapshot s, ?_, ?_⟩
    · rw [hload (some pw), loadBody_saved s pw salt nonce hval hpw hs hn]
    · rw [loadedSnapshot_eq]
      show (s.files.map reloadEntry).map
          (fun f => (f.relative_path, f.content, f.size, f.checksum)) =
        s.files.map (fun f => (f.relative_path, f.content, f.size, f.checksum))
      rw [List.map_map]
      apply List.map_congr_left
      intro f hf
      have h2 : sha256hex f.content = f.checksum := by
        simpa [FileEntry.validate_checksum, beq_iff_eq] using hinv.2.1 f hf
      have h3 := hwf f hf
      simp [reloadEntry, FileEntry.make, normalize_path_id, Function.comp,
        h2, h3]
  · intro pw2 hpw2 hne
    rw [hload (some pw2),
      loadBody_saved_wrong s pw pw2 salt nonce hpw2 hne hs hn]
    rfl

/-- C7 witness: the encrypted round trip at a concrete one-file
snapshot. -/
theorem C7_encrypted_snapshot_roundtrip_witness :
    DirectorySnapshot.validate sampleSnapshot = .ok true ∧
    (∀ f ∈ sampleSnapshot.files, f.size = f.content.length) ∧
    (JsonSnapshotRepository.save sampleSnapshot [112] (some [107])
      (List.replicate 32 0) (List.replicate 12 0) sampleFS).1 = .ok () ∧
    JsonSnapshotRepository.load [112] none
      (JsonSnapshotRepository.save sampleSnapshot [112] (some [107])
        (List.replicate 32 0) (List.replicate 12 0) sampleFS).2 =
      .error .DecryptionError ∧
    JsonSnapshotRepository.load [112] (some [108])
      (JsonSnapshotRepository.save sampleSnapshot [112] (some [107])
        (List.replicate 32 0) (List.replicate 12 0) sampleFS).2 =
      .error .InvalidPasswordError := by
  have h := C7_encrypted_snapshot_roundtrip sampleSnapshot [112] [107]
    (List.replicate 32 0) (List.replicate 12 0) sampleFS
    rfl (by decide) (by decide) (by decide) (by decide)
  exact ⟨rfl, by decide, h.1, h.2.1, h.2.2.2 [108] (by decide) (by decide)⟩
